import Mathlib

/-!
Verification of the recipe manager's core logic (`src/app.py`).

The development shallowly embeds the three core components:

* `normalize_percent_value` — the percentage normalizer (app.py lines 73-84);
* `calculate_conversion` — the baker's-percentage conversion route
  (app.py lines 332-385), together with its helpers `is_flour_ingredient`
  (lines 294-296) and `is_percentage_group` (lines 350-351);
* `get_all_recipes_data` — the read-side recipe shaper (app.py lines 86-134).

Modelling conventions:

* Python numbers are modelled as rationals (`ℚ`); Python's binary floating
  point is idealized to exact arithmetic, and `round(x, d)` is modelled as
  round-half-to-even at `d` decimal digits (CPython's rounding mode).
* Python values that may be `None`, a number or a string are modelled by the
  inductive type `PyVal`; nullable record fields are `Option`s.
* `float(s)` on strings is modelled by `parseFloatChars`, a parser for
  optionally signed finite decimal literals with surrounding whitespace
  (the forms the repository's data uses; `inf`/`nan`/exponents are out of
  scope and parse to `Option.none`).
* SQLite rows are the `Row` structure; the SQL `ORDER BY RecipeName, id` is
  modelled by an insertion sort under the lexicographic order `rowLE`, and
  `pandas.groupby` (sorted keys, frame order kept inside a group) by
  deduplicated keys of the sorted frame plus a filter per key.
* The mutable-heap behaviour of the conversion loop (lines 367-377), which
  appends fresh `ing.copy()` cells and never writes to the recipe's own
  cells, is captured by the store-passing function `convertLoop`.
-/

set_option maxRecDepth 4000

/-- A Python value as it arrives from JSON / the database for the fields the
core inspects: `None`, a number, or a string. -/
inductive PyVal where
  | none : PyVal
  | num : ℚ → PyVal
  | str : String → PyVal
deriving DecidableEq

/-- Python whitespace test used by `str.strip()` / `float()` stripping. -/
def isPySpace (c : Char) : Bool := c.isWhitespace

/-- `str.strip()` on a character list: drop whitespace at both ends. -/
def stripChars (cs : List Char) : List Char :=
  ((cs.dropWhile isPySpace).reverse.dropWhile isPySpace).reverse

/-- `s.endswith(c)`: the last character is `c` (false on the empty string). -/
def endsWithChar : List Char → Char → Bool
  | [], _ => false
  | [a], c => a = c
  | _ :: b :: rest, c => endsWithChar (b :: rest) c

/-- Numeric value of a decimal digit character. -/
def digitVal (c : Char) : ℕ := c.toNat - '0'.toNat

/-- Value of a string of decimal digits (most significant first). -/
def natOfDigits (ds : List Char) : ℕ := ds.foldl (fun a c => 10 * a + digitVal c) 0

/-- Unsigned part of Python's `float(string)`: digits with an optional single
decimal point, at least one digit overall. -/
def parseUnsigned (cs : List Char) : Option ℚ :=
  let ip := cs.takeWhile Char.isDigit
  let rest := cs.dropWhile Char.isDigit
  match rest with
  | [] => if ip.isEmpty then Option.none else some ((natOfDigits ip : ℕ) : ℚ)
  | c :: fp =>
    if c = '.' ∧ (ip ≠ [] ∨ fp ≠ []) ∧ fp.all Char.isDigit then
      some ((natOfDigits ip : ℚ) + (natOfDigits fp : ℚ) / ((10 : ℚ) ^ fp.length))
    else Option.none

/-- Python's `float(string)` on finite decimal literals: strip whitespace,
optional sign, unsigned decimal; anything else raises `ValueError`, modelled
as `Option.none`. -/
def parseFloatChars (cs : List Char) : Option ℚ :=
  match stripChars cs with
  | '+' :: rest => parseUnsigned rest
  | '-' :: rest => (parseUnsigned rest).map (fun q => -q)
  | rest => parseUnsigned rest

/-- Python's `float(p)` for `p` a number, string or `None` (raising, i.e.
`Option.none`, on `None` and unparseable strings). -/
def pyFloat : PyVal → Option ℚ
  | PyVal.none => Option.none
  | PyVal.num q => some q
  | PyVal.str s => parseFloatChars s.data

/-- `normalize_percent_value` (app.py lines 73-84): `None`/`""` give `None`;
a string ending in `%` is stripped, its `%` signs removed, parsed and divided
by 100; otherwise the value is parsed and divided by 100 exactly when the
parsed number exceeds 1; a parse failure (`ValueError`) yields `None`. -/
def normalize_percent_value (p : PyVal) : Option ℚ :=
  match p with
  | PyVal.none => Option.none
  | PyVal.str s =>
    if s = "" then Option.none
    else if endsWithChar s.data '%' then
      (parseFloatChars ((stripChars s.data).filter (fun c => c ≠ '%'))).map (fun n => n / 100)
    else
      (parseFloatChars s.data).map (fun n => if 1 < n then n / 100 else n)
  | PyVal.num q => some (if 1 < q then q / 100 else q)

/-- One ingredient record as the conversion engine receives it (a row of the
`recipes` table shaped by `get_all_recipes_data`). -/
structure Ingredient where
  group : Option String
  name : String
  weight : Option ℚ
  percent : Option ℚ
  desc : Option String
deriving DecidableEq

/-- Whether the first character list starts with the second. -/
def startsWithL : List Char → List Char → Bool
  | _, [] => true
  | [], _ :: _ => false
  | a :: s, b :: p => a = b && startsWithL s p

/-- Python's substring test `pat in s` on character lists. -/
def containsL : List Char → List Char → Bool
  | [], pat => pat.isEmpty
  | c :: rest, pat => startsWithL (c :: rest) pat || containsL rest pat

/-- The flour-name classifier of app.py lines 294-296. -/
def is_flour_ingredient (name : String) : Bool :=
  (["麵粉", "粉"] : List String).any (fun keyword => containsL name.data keyword.data)

/-- `is_percentage_group` (app.py lines 350-351): the group label is in the
fixed basis allow-list; a missing (`NULL`) group is in no group. -/
def is_percentage_group : Option String → Bool
  | some g => (["中種", "主麵團", "主面团", "中种"] : List String).contains g
  | Option.none => false

/-- Floor of a rational, computably (`Int.fdiv` is floor division). -/
def qfloor (q : ℚ) : ℤ := Int.fdiv q.num q.den

/-- Round a rational to the nearest integer, ties to even (CPython's
`round`). -/
def roundHalfEven (q : ℚ) : ℤ :=
  let n := qfloor q
  if q - n < 1 / 2 then n
  else if 1 / 2 < q - n then n + 1
  else if n % 2 = 0 then n else n + 1

/-- Python's `round(q, d)`: round half-to-even at `d` decimal digits. -/
def pyRound (d : ℕ) (q : ℚ) : ℚ :=
  ((roundHalfEven (q * (10 : ℚ) ^ d) : ℤ) : ℚ) / (10 : ℚ) ^ d

/-- The condition of app.py line 357: the ingredient counts towards the
original basis-flour mass. -/
def flourContrib (ing : Ingredient) : Bool :=
  is_flour_ingredient ing.name && is_percentage_group ing.group

/-- `original_total_flour` (app.py lines 354-358): left fold over the
ingredients adding the weight (`None` read as 0, via `or 0`) of every
ingredient that is both flour-named and in a percentage-basis group. -/
def originalTotalFlour (ings : List Ingredient) : ℚ :=
  ings.foldl (fun acc ing => if flourContrib ing then acc + ing.weight.getD 0 else acc) 0

/-- The per-ingredient body of the conversion loop (app.py lines 368-377):
scale (and round to 1 decimal) the weight of an ingredient in a basis group,
or of any ingredient when `includeNonPercentageGroups` holds; otherwise the
record is kept as is. -/
def convertOne (ratio : ℚ) (includeNonPercentageGroups : Bool) (ing : Ingredient) : Ingredient :=
  if is_percentage_group ing.group || includeNonPercentageGroups then
    { ing with weight := some (pyRound 1 (ing.weight.getD 0 * ratio)) }
  else ing

/-- The full converted ingredient list (app.py lines 367-377). -/
def convertIngredients (ings : List Ingredient) (ratio : ℚ)
    (includeNonPercentageGroups : Bool) : List Ingredient :=
  ings.map (convertOne ratio includeNonPercentageGroups)

/-- Baking parameters of a recipe (app.py lines 105-111): scalar fields from
the first row of the group; `convection`/`steam` are equality tests of the
stored token against the literal `是`. -/
structure BakingInfo where
  topHeat : Option ℤ
  bottomHeat : Option ℤ
  time : Option ℤ
  convection : Bool
  steam : Bool
deriving DecidableEq

/-- A recipe as shaped by `get_all_recipes_data` (app.py lines 124-131) and
consumed by the conversion route. -/
structure Recipe where
  title : String
  steps : Option String := Option.none
  timestamp : Option String := Option.none
  baking : BakingInfo := ⟨Option.none, Option.none, Option.none, false, false⟩
  ingredients : List Ingredient
deriving DecidableEq

/-- Outcome of `calculate_conversion_route`: an uncaught exception (HTTP
500), the 400 input error, the 404 not-found error, the 400 domain error for
missing basis flour, or the success payload. -/
inductive ConvResult where
  | exn : ConvResult
  | inputError : ConvResult
  | notFound : ConvResult
  | domainError : ConvResult
  | ok : ℚ → ℚ → ℚ → List Ingredient → ConvResult
deriving DecidableEq

/-- Python truthiness of an optional string (`not recipe_name`). -/
def pyFalsyStr : Option String → Bool
  | Option.none => true
  | some s => s = ""

/-- `calculate_conversion_route` (app.py lines 332-385). `float` is applied
to the raw target before any validation, so an unparseable target is an
uncaught exception; then falsy recipe name or non-positive target is the 400
input error; the recipe is the first with a matching title; zero or negative
basis flour is the 400 domain error; otherwise the success payload carries
the original basis-flour mass, the target, the unrounded ratio, and the
converted ingredient list. -/
def calculate_conversion (recipeName : Option String) (newTotalFlour : PyVal)
    (includeNonPercentageGroups : Bool) (allRecipes : List Recipe) : ConvResult :=
  match pyFloat newTotalFlour with
  | Option.none => ConvResult.exn
  | some t =>
    if pyFalsyStr recipeName || decide (t ≤ 0) then ConvResult.inputError
    else
      match allRecipes.find? (fun r => some r.title == recipeName) with
      | Option.none => ConvResult.notFound
      | some recipe =>
        let otf := originalTotalFlour recipe.ingredients
        if otf ≤ 0 then ConvResult.domainError
        else
          ConvResult.ok otf t (t / otf)
            (convertIngredients recipe.ingredients (t / otf) includeNonPercentageGroups)

/-- A row of the `recipes` table (schema at app.py lines 42-59): the
autoincrement primary key and the thirteen data columns, nullable columns as
`Option`s. -/
structure Row where
  id : ℕ
  RecipeName : String
  IngredientGroup : Option String := Option.none
  IngredientName : String
  Weight_g : Option ℚ := Option.none
  Percentage : Option ℚ := Option.none
  Description : Option String := Option.none
  Steps : Option String := Option.none
  Timestamp : Option String := Option.none
  UpperTemp : Option ℤ := Option.none
  LowerTemp : Option ℤ := Option.none
  BakeTime : Option ℤ := Option.none
  Convection : Option String := Option.none
  Steam : Option String := Option.none
deriving DecidableEq

/-- The ingredient record built from one row (app.py lines 115-122). -/
def rowToIngredient (r : Row) : Ingredient :=
  { group := r.IngredientGroup
    name := r.IngredientName
    weight := r.Weight_g
    percent := r.Percentage
    desc := r.Description }

/-- The `ORDER BY RecipeName, id` order of the read query (app.py line 91):
lexicographic on recipe name, then on the primary key. -/
def rowLE (a b : Row) : Prop :=
  a.RecipeName < b.RecipeName ∨ (a.RecipeName = b.RecipeName ∧ a.id ≤ b.id)

instance : DecidableRel rowLE := fun a b => by
  unfold rowLE
  exact inferInstance

instance : IsTotal Row rowLE := by
  constructor
  intro a b
  rcases lt_trichotomy a.RecipeName b.RecipeName with h | h | h
  · exact Or.inl (Or.inl h)
  · rcases Nat.le_total a.id b.id with h2 | h2
    · exact Or.inl (Or.inr ⟨h, h2⟩)
    · exact Or.inr (Or.inr ⟨h.symm, h2⟩)
  · exact Or.inr (Or.inl h)

instance : IsTrans Row rowLE := by
  constructor
  intro a b c hab hbc
  rcases hab with h1 | ⟨e1, l1⟩ <;> rcases hbc with h2 | ⟨e2, l2⟩
  · exact Or.inl (h1.trans h2)
  · exact Or.inl (e2 ▸ h1)
  · exact Or.inl (e1 ▸ h2)
  · exact Or.inr ⟨e1.trans e2, l1.trans l2⟩

/-- One group of `df.groupby('RecipeName')` shaped into a recipe (app.py
lines 101-132): scalar fields and baking parameters from the first row,
ingredients from every row in frame order. -/
def shapeGroup (name : String) (grp : List Row) : Recipe :=
  match grp with
  | [] =>
    { title := name, ingredients := [] }
  | first :: _ =>
    { title := name
      steps := first.Steps
      timestamp := first.Timestamp
      baking :=
        { topHeat := first.UpperTemp
          bottomHeat := first.LowerTemp
          time := first.BakeTime
          convection := first.Convection = some "是"
          steam := first.Steam = some "是" }
      ingredients := grp.map rowToIngredient }

/-- `get_all_recipes_data` (app.py lines 86-134): read all rows ordered by
`(RecipeName, id)`, group by recipe name (group keys in sorted order, rows of
a group in frame order), and shape each group. -/
def get_all_recipes_data (rows : List Row) : List Recipe :=
  let df := List.insertionSort rowLE rows
  ((df.map Row.RecipeName).dedup).map
    (fun t => shapeGroup t (df.filter (fun r => r.RecipeName = t)))

/-- Replace a missing weight by an explicit 0 (the value `or 0` reads). -/
def fillWeight (ing : Ingredient) : Ingredient :=
  { ing with weight := some (ing.weight.getD 0) }

/-- Store-passing rendition of the conversion loop (app.py lines 367-377),
making the Python heap explicit: the store is a list of dict cells, the
recipe's ingredients are the addresses `addrs` into it. Each iteration reads
the cell at the current address, allocates the fresh cell `ing.copy()` with
the (possibly rescaled) weight at the end of the store, and appends the fresh
cell's address to the output list. Returns the final store and the output
addresses. -/
def convertLoop (ratio : ℚ) (includeNonPercentageGroups : Bool) :
    List ℕ → List Ingredient → List Ingredient × List ℕ
  | [], store => (store, [])
  | addr :: rest, store =>
    let ing := store.getD addr ⟨Option.none, "", Option.none, Option.none, Option.none⟩
    let conv := convertOne ratio includeNonPercentageGroups ing
    let out := convertLoop ratio includeNonPercentageGroups rest (store ++ [conv])
    (out.1, store.length :: out.2)

/-- The empty dict cell used as the (never reached) out-of-range default of
`convertLoop`'s store read. -/
def emptyCell : Ingredient :=
  ⟨Option.none, "", Option.none, Option.none, Option.none⟩

/-- The spec's scenario recipe `豆漿吐司` (spec §8). -/
def specRecipe : Recipe :=
  { title := "豆漿吐司"
    ingredients :=
      [{ group := some "主麵團", name := "高筋麵粉", weight := some 500,
         percent := Option.none, desc := Option.none },
       { group := some "主麵團", name := "水", weight := some 350,
         percent := Option.none, desc := Option.none }] }

/-- A recipe with no flour-named ingredient at all. -/
def noFlourRecipe : Recipe :=
  { title := "A"
    ingredients :=
      [{ group := some "主麵團", name := "水", weight := some 350,
         percent := Option.none, desc := Option.none }] }

/-- A one-ingredient basis recipe with flour weight 3, whose conversion to
target 1 has the non-terminating decimal ratio 1/3. -/
def thirdRecipe : Recipe :=
  { title := "A"
    ingredients :=
      [{ group := some "主麵團", name := "粉", weight := some 3,
         percent := Option.none, desc := Option.none }] }

/-- An ingredient record whose weight is missing. -/
def noWeightIng : Ingredient :=
  { group := some "主麵團", name := "粉", weight := Option.none,
    percent := Option.none, desc := Option.none }

/-- The spec's shaper scenario (spec §8): two recipes `A` and `B` whose rows
are interleaved in storage order. -/
def rowsInterleaved : List Row :=
  [{ id := 0, RecipeName := "A", IngredientName := "高筋麵粉",
     IngredientGroup := some "主麵團", Weight_g := some 500 },
   { id := 1, RecipeName := "B", IngredientName := "水",
     IngredientGroup := some "主麵團", Weight_g := some 100 },
   { id := 2, RecipeName := "A", IngredientName := "水",
     IngredientGroup := some "主麵團", Weight_g := some 350 }]

/-- Storage (insertion/id) order on rows: the order the shaper must
preserve inside a recipe. -/
def idlt (a b : Row) : Prop := a.id < b.id

instance : DecidableRel idlt := fun a b => by
  unfold idlt
  exact inferInstance

instance : IsAntisymm Row idlt :=
  ⟨fun _ _ h1 h2 => absurd h2 (Nat.lt_asymm h1)⟩

/-- Characterization of `startsWithL`: `s` starts with `p` iff `p` is a
prefix of `s` in the appended-lists sense. -/
theorem startsWithL_iff : ∀ (p s : List Char), startsWithL s p = true ↔ ∃ v, s = p ++ v
  | [], s => by simp [startsWithL]
  | b :: p, [] => by simp [startsWithL]
  | b :: p, a :: s => by
    simp only [startsWithL, Bool.and_eq_true, decide_eq_true_eq, List.cons_append,
      List.cons.injEq]
    constructor
    · rintro ⟨rfl, h⟩
      obtain ⟨v, rfl⟩ := (startsWithL_iff p s).mp h
      exact ⟨v, rfl, rfl⟩
    · rintro ⟨v, rfl, h⟩
      exact ⟨rfl, (startsWithL_iff p s).mpr ⟨v, h⟩⟩

/-- Characterization of `containsL`: `p` occurs in `s` iff `s` splits as
`u ++ p ++ v`. -/
theorem containsL_iff : ∀ (s p : List Char), containsL s p = true ↔ ∃ u v, s = u ++ p ++ v
  | [], [] => by
    refine iff_of_true (by simp [containsL]) ⟨[], [], rfl⟩
  | [], x :: p => by
    constructor
    · intro h
      simp [containsL] at h
    · rintro ⟨u, v, h⟩
      exact absurd h.symm (by simp)
  | c :: rest, p => by
    simp only [containsL, Bool.or_eq_true, startsWithL_iff, containsL_iff rest p]
    constructor
    · rintro (⟨v, hv⟩ | ⟨u, v, hv⟩)
      · exact ⟨[], v, by simpa using hv⟩
      · exact ⟨c :: u, v, by simp [hv]⟩
    · rintro ⟨u, v, h⟩
      cases u with
      | nil =>
        exact Or.inl ⟨v, by simpa using h⟩
      | cons x u =>
        rw [List.cons_append, List.cons_append] at h
        injection h with h1 h2
        exact Or.inr ⟨u, v, h2⟩

/-- C10: because `粉` is a substring of `麵粉`, the two-keyword flour
classifier is extensionally the single substring test for `粉`: for every
name, `is_flour_ingredient name` holds iff the name contains `粉`. -/
theorem flour_classifier_equals_single_keyword (name : String) :
    is_flour_ingredient name = containsL name.data ("粉" : String).data := by
  have hdata : ("麵粉" : String).data = '麵' :: ("粉" : String).data := rfl
  unfold is_flour_ingredient
  simp only [List.any_cons, List.any_nil, Bool.or_false]
  cases h : containsL name.data ("麵粉" : String).data with
  | false => simp
  | true =>
    obtain ⟨u, v, huv⟩ := (containsL_iff _ _).mp h
    have hsingle : containsL name.data ("粉" : String).data = true := by
      refine (containsL_iff _ _).mpr ⟨u ++ ['麵'], v, ?_⟩
      rw [huv, hdata]
      simp
    simp [hsingle]

/-- C9: the conversion loop never writes to the input recipe's cells: the
final store extends the initial store, every original address unchanged (the
loop only allocates fresh `ing.copy()` cells at the end of the store). -/
theorem conversion_never_mutates_store (ratio : ℚ) (inc : Bool) :
    ∀ (addrs : List ℕ) (store : List Ingredient),
      ∃ fresh, (convertLoop ratio inc addrs store).1 = store ++ fresh := by
  intro addrs
  induction addrs with
  | nil =>
    intro store
    exact ⟨[], by simp [convertLoop]⟩
  | cons a rest ih =>
    intro store
    obtain ⟨fresh, hf⟩ := ih (store ++ [convertOne ratio inc (store.getD a emptyCell)])
    refine ⟨convertOne ratio inc (store.getD a emptyCell) :: fresh, ?_⟩
    rw [convertLoop]
    simpa [emptyCell] using hf

/-- C4 (divergence witness): a non-numeric target mass reaches `float()`
before any validation, so the route ends in an uncaught `ValueError`
(an HTTP 500), not the 400 input-error result. -/
theorem nonnumeric_target_raises_before_validation :
    calculate_conversion (some "豆漿吐司") (PyVal.str "abc") false [specRecipe] =
      ConvResult.exn := by
  with_unfolding_all rfl

/-- C2: the contract of `normalize_percent_value`: `None` and the empty
string give `None`; a percent-suffixed string is stripped of whitespace and
`%` signs, parsed and divided by 100 (`None` on parse failure); any other
string is parsed, divided by 100 exactly when the parsed value exceeds 1 and
passed through otherwise (`None` on parse failure); a number is divided by
100 exactly when it exceeds 1; and the spec's test vector holds. The
function is total on `PyVal` — the `ValueError` is caught, nothing escapes
to the caller. -/
theorem normalize_percent_contract :
    normalize_percent_value PyVal.none = Option.none ∧
    normalize_percent_value (PyVal.str "") = Option.none ∧
    (∀ s : String, s ≠ "" → endsWithChar s.data '%' = true →
      normalize_percent_value (PyVal.str s) =
        (parseFloatChars ((stripChars s.data).filter (fun c => c ≠ '%'))).map
          (fun n => n / 100)) ∧
    (∀ s : String, s ≠ "" → endsWithChar s.data '%' = false →
      normalize_percent_value (PyVal.str s) =
        (parseFloatChars s.data).map (fun n => if 1 < n then n / 100 else n)) ∧
    (∀ q : ℚ, normalize_percent_value (PyVal.num q) = some (if 1 < q then q / 100 else q)) ∧
    normalize_percent_value (PyVal.str "50%") = some (1 / 2) ∧
    normalize_percent_value (PyVal.num 50) = some (1 / 2) ∧
    normalize_percent_value (PyVal.num (1 / 2)) = some (1 / 2) ∧
    normalize_percent_value (PyVal.str "abc") = Option.none := by
  refine ⟨rfl, rfl, ?_, ?_, fun q => rfl, ?_, ?_, ?_, ?_⟩
  · intro s hs hpct
    simp [normalize_percent_value, hs, hpct]
  · intro s hs hpct
    simp [normalize_percent_value, hs, hpct]
  · with_unfolding_all decide
  · with_unfolding_all decide
  · with_unfolding_all decide
  · with_unfolding_all decide

/-- Witness for C2: the percent-string clause at `"50%"` and the plain
numeric-string clause at `"0.5"`. -/
theorem normalize_percent_contract_witness :
    ("50%" : String) ≠ "" ∧ endsWithChar ("50%" : String).data '%' = true ∧
    normalize_percent_value (PyVal.str "50%") =
      (parseFloatChars ((stripChars ("50%" : String).data).filter (fun c => c ≠ '%'))).map
        (fun n => n / 100) ∧
    ("0.5" : String) ≠ "" ∧ endsWithChar ("0.5" : String).data '%' = false ∧
    normalize_percent_value (PyVal.str "0.5") =
      (parseFloatChars ("0.5" : String).data).map (fun n => if 1 < n then n / 100 else n) :=
  ⟨by decide, by decide, normalize_percent_contract.2.2.1 "50%" (by decide) (by decide),
    by decide, by decide, normalize_percent_contract.2.2.2.1 "0.5" (by decide) (by decide)⟩

/-- Peeling the accumulator out of the basis-flour left fold. -/
theorem foldl_flour_shift (ings : List Ingredient) :
    ∀ acc : ℚ,
      ings.foldl (fun a ing => if flourContrib ing then a + ing.weight.getD 0 else a) acc =
        acc + originalTotalFlour ings := by
  induction ings with
  | nil =>
    intro acc
    simp [originalTotalFlour]
  | cons i l ih =>
    intro acc
    rw [originalTotalFlour, List.foldl_cons, List.foldl_cons, ih, ih]
    cases hc : flourContrib i <;> simp only [hc, if_true, if_false, Bool.false_eq_true] <;> ring

/-- The basis-flour sum, one ingredient at a time. -/
theorem originalTotalFlour_cons (i : Ingredient) (l : List Ingredient) :
    originalTotalFlour (i :: l) =
      (if flourContrib i then i.weight.getD 0 else 0) + originalTotalFlour l := by
  rw [originalTotalFlour, List.foldl_cons, foldl_flour_shift]
  cases hc : flourContrib i <;> simp [hc]

/-- A list with no contributing ingredient sums to exactly 0. -/
theorem originalTotalFlour_eq_zero :
    ∀ l : List Ingredient, (∀ ing ∈ l, flourContrib ing = false) →
      originalTotalFlour l = 0
  | [], _ => rfl
  | i :: t, h => by
    rw [originalTotalFlour_cons, h i (by simp),
      originalTotalFlour_eq_zero t fun ing hm => h ing (by simp [hm])]
    simp

/-- The success path of the conversion route: with a non-empty recipe name, a
positive target, a found recipe and positive basis flour, the route returns
the success payload with the exact (unrounded) ratio and the converted
list. -/
theorem calculate_conversion_success (rn : String) (t : ℚ) (inc : Bool)
    (rs : List Recipe) (recipe : Recipe) (hrn : rn ≠ "") (ht : 0 < t)
    (hfind : rs.find? (fun r => some r.title == some rn) = some recipe)
    (hotf : 0 < originalTotalFlour recipe.ingredients) :
    calculate_conversion (some rn) (PyVal.num t) inc rs =
      ConvResult.ok (originalTotalFlour recipe.ingredients) t
        (t / originalTotalFlour recipe.ingredients)
        (convertIngredients recipe.ingredients
          (t / originalTotalFlour recipe.ingredients) inc) := by
  unfold calculate_conversion pyFloat
  simp only [hfind, pyFalsyStr]
  rw [if_neg, if_neg]
  · exact not_le.mpr hotf
  · simp [hrn, not_le.mpr ht]

/-- C3: a recipe in which no ingredient is both flour-named and in a basis
group has basis-flour mass exactly 0, so the conversion ends in the domain
error — no crash, no partial output, no weight at all. -/
theorem no_basis_flour_yields_domain_error (rn : String) (t : ℚ) (inc : Bool)
    (rs : List Recipe) (recipe : Recipe) (hrn : rn ≠ "") (ht : 0 < t)
    (hfind : rs.find? (fun r => some r.title == some rn) = some recipe)
    (hnone : ∀ ing ∈ recipe.ingredients,
      ¬(is_flour_ingredient ing.name = true ∧ is_percentage_group ing.group = true)) :
    calculate_conversion (some rn) (PyVal.num t) inc rs = ConvResult.domainError := by
  have hz : originalTotalFlour recipe.ingredients = 0 := by
    apply originalTotalFlour_eq_zero
    intro ing hing
    have hni := hnone ing hing
    cases hf : is_flour_ingredient ing.name <;>
      cases hg : is_percentage_group ing.group <;>
      simp [flourContrib, hf, hg] at hni ⊢
  unfold calculate_conversion pyFloat
  simp only [hfind, pyFalsyStr, hz]
  rw [if_neg, if_pos le_rfl]
  simp [hrn, not_le.mpr ht]

/-- Witness for C3: converting the flour-less recipe `noFlourRecipe` to
target 600 ends in the domain error. -/
theorem no_basis_flour_yields_domain_error_witness :
    ("A" : String) ≠ "" ∧ (0 : ℚ) < 600 ∧
    [noFlourRecipe].find? (fun r => some r.title == some "A") = some noFlourRecipe ∧
    calculate_conversion (some "A") (PyVal.num 600) false [noFlourRecipe] =
      ConvResult.domainError :=
  ⟨by decide, by decide, by rfl,
    no_basis_flour_yields_domain_error "A" 600 false [noFlourRecipe] noFlourRecipe
      (by decide) (by decide) (by rfl) (by decide)⟩

/-- Filling a missing weight commutes with the per-ingredient conversion
body. -/
theorem convertOne_fillWeight (ratio : ℚ) (inc : Bool) (ing : Ingredient) :
    convertOne ratio inc (fillWeight ing) = fillWeight (convertOne ratio inc ing) := by
  unfold convertOne fillWeight
  cases h : (is_percentage_group ing.group || inc) <;> simp [h]

/-- C5: a missing (`None`) weight behaves exactly like an explicit weight 0
everywhere: filling missing weights with 0 changes neither the basis-flour
sum nor the converted output (up to the same filling of the untouched
records), and a scaled ingredient with missing weight gets the product
`0 * ratio` — no `None` ever propagates into the sum or the product. -/
theorem missing_weight_treated_as_zero (ings : List Ingredient) (ratio : ℚ) (inc : Bool) :
    originalTotalFlour (ings.map fillWeight) = originalTotalFlour ings ∧
    convertIngredients (ings.map fillWeight) ratio inc =
      (convertIngredients ings ratio inc).map fillWeight ∧
    ∀ ing ∈ ings, ing.weight = Option.none →
      convertOne ratio inc ing =
        (if is_percentage_group ing.group || inc then
          { ing with weight := some (pyRound 1 (0 * ratio)) }
        else ing) := by
  refine ⟨?_, ?_, ?_⟩
  · induction ings with
    | nil => rfl
    | cons i l ih =>
      rw [List.map_cons, originalTotalFlour_cons, originalTotalFlour_cons, ih]
      rfl
  · simp only [convertIngredients, List.map_map]
    refine List.map_congr_left fun ing _ => ?_
    simpa [Function.comp] using convertOne_fillWeight ratio inc ing
  · intro ing _ hw
    unfold convertOne
    cases h : (is_percentage_group ing.group || inc) <;> simp [h, hw]

/-- Witness for C5: the missing-weight ingredient `noWeightIng` under ratio
2, scaled, gets the product `0 * 2`. -/
theorem missing_weight_treated_as_zero_witness :
    noWeightIng ∈ [noWeightIng] ∧ noWeightIng.weight = Option.none ∧
    convertOne 2 false noWeightIng =
      (if is_percentage_group noWeightIng.group || false then
        { noWeightIng with weight := some (pyRound 1 (0 * 2)) }
      else noWeightIng) :=
  ⟨by simp, by rfl,
    (missing_weight_treated_as_zero [noWeightIng] 2 false).2.2 noWeightIng (by simp) (by rfl)⟩

/-- C1: on the success path the output has exactly one record per input
record, in input order; a record in a basis group — or any record when the
inclusion flag is set — has its weight replaced by
`round(originalWeight * ratio, 1)` with `ratio = target / originalBasisFlour`
unrounded, and every other record is returned unchanged. -/
theorem conversion_scales_each_ingredient (rn : String) (t : ℚ) (inc : Bool)
    (rs : List Recipe) (recipe : Recipe) (hrn : rn ≠ "") (ht : 0 < t)
    (hfind : rs.find? (fun r => some r.title == some rn) = some recipe)
    (hotf : 0 < originalTotalFlour recipe.ingredients) :
    ∃ outs,
      calculate_conversion (some rn) (PyVal.num t) inc rs =
        ConvResult.ok (originalTotalFlour recipe.ingredients) t
          (t / originalTotalFlour recipe.ingredients) outs ∧
      outs.length = recipe.ingredients.length ∧
      ∀ i, i < recipe.ingredients.length →
        outs[i]? = (recipe.ingredients[i]?).map (fun ing =>
          if is_percentage_group ing.group || inc then
            { ing with
                weight := some (pyRound 1
                  (ing.weight.getD 0 * (t / originalTotalFlour recipe.ingredients))) }
          else ing) := by
  refine ⟨convertIngredients recipe.ingredients (t / originalTotalFlour recipe.ingredients) inc,
    calculate_conversion_success rn t inc rs recipe hrn ht hfind hotf, ?_, ?_⟩
  · simp [convertIngredients]
  · intro i hi
    simp only [convertIngredients, List.getElem?_map]
    rfl

/-- Witness for C1 at the spec's scenario: recipe `豆漿吐司`, target 600. -/
theorem conversion_scales_each_ingredient_witness :
    ("豆漿吐司" : String) ≠ "" ∧ (0 : ℚ) < 600 ∧
    [specRecipe].find? (fun r => some r.title == some "豆漿吐司") = some specRecipe ∧
    (0 : ℚ) < originalTotalFlour specRecipe.ingredients ∧
    ∃ outs,
      calculate_conversion (some "豆漿吐司") (PyVal.num 600) false [specRecipe] =
        ConvResult.ok (originalTotalFlour specRecipe.ingredients) 600
          (600 / originalTotalFlour specRecipe.ingredients) outs ∧
      outs.length = specRecipe.ingredients.length ∧
      ∀ i, i < specRecipe.ingredients.length →
        outs[i]? = (specRecipe.ingredients[i]?).map (fun ing =>
          if is_percentage_group ing.group || false then
            { ing with
                weight := some (pyRound 1
                  (ing.weight.getD 0 * (600 / originalTotalFlour specRecipe.ingredients))) }
          else ing) :=
  ⟨by decide, by decide, by rfl, by with_unfolding_all decide,
    conversion_scales_each_ingredient "豆漿吐司" 600 false [specRecipe] specRecipe
      (by decide) (by decide) (by rfl) (by with_unfolding_all decide)⟩

/-- C7: converting a recipe to its own basis-flour total gives ratio exactly
1, and every scaled weight becomes the 1-decimal rounding of the original
weight (unscaled records are untouched). -/
theorem conversion_to_own_flour_total_identity (rn : String) (inc : Bool)
    (rs : List Recipe) (recipe : Recipe) (hrn : rn ≠ "")
    (hfind : rs.find? (fun r => some r.title == some rn) = some recipe)
    (hotf : 0 < originalTotalFlour recipe.ingredients) :
    calculate_conversion (some rn)
        (PyVal.num (originalTotalFlour recipe.ingredients)) inc rs =
      ConvResult.ok (originalTotalFlour recipe.ingredients)
        (originalTotalFlour recipe.ingredients) 1
        (recipe.ingredients.map (fun ing =>
          if is_percentage_group ing.group || inc then
            { ing with weight := some (pyRound 1 (ing.weight.getD 0)) }
          else ing)) := by
  rw [calculate_conversion_success rn _ inc rs recipe hrn hotf hfind hotf,
    div_self (ne_of_gt hotf)]
  unfold convertIngredients
  congr 1
  refine List.map_congr_left fun ing _ => ?_
  unfold convertOne
  rw [mul_one]

/-- Witness for C7: converting `豆漿吐司` to its own basis-flour total. -/
theorem conversion_to_own_flour_total_identity_witness :
    ("豆漿吐司" : String) ≠ "" ∧
    [specRecipe].find? (fun r => some r.title == some "豆漿吐司") = some specRecipe ∧
    (0 : ℚ) < originalTotalFlour specRecipe.ingredients ∧
    calculate_conversion (some "豆漿吐司")
        (PyVal.num (originalTotalFlour specRecipe.ingredients)) false [specRecipe] =
      ConvResult.ok (originalTotalFlour specRecipe.ingredients)
        (originalTotalFlour specRecipe.ingredients) 1
        (specRecipe.ingredients.map (fun ing =>
          if is_percentage_group ing.group || false then
            { ing with weight := some (pyRound 1 (ing.weight.getD 0)) }
          else ing)) :=
  ⟨by decide, by rfl, by with_unfolding_all decide,
    conversion_to_own_flour_total_identity "豆漿吐司" false [specRecipe] specRecipe
      (by decide) (by rfl) (by with_unfolding_all decide)⟩

/-- Counterexample to C6 as stated: converting `thirdRecipe` (basis flour 3)
to target 1 succeeds and reports the ratio `1/3` exactly — not
`round(1/3, 3) = 0.333`, which differs. -/
theorem reported_ratio_unrounded_cex :
    calculate_conversion (some "A") (PyVal.num 1) false [thirdRecipe] =
      ConvResult.ok 3 1 (1 / 3)
        [{ group := some "主麵團", name := "粉", weight := some 1,
           percent := Option.none, desc := Option.none }] ∧
    (1 : ℚ) / 3 ≠ pyRound 3 (1 / 3) :=
  ⟨by with_unfolding_all rfl, by with_unfolding_all decide⟩

/-- C6 as amended: in every successful conversion the reported ratio is
`target / originalBasisFlour` at full precision (the code never rounds it),
while every scaled weight is `round(weight * ratio, 1)` with the unrounded
ratio used internally. -/
theorem reported_ratio_exact_weights_rounded (rn : String) (t : ℚ) (inc : Bool)
    (rs : List Recipe) (recipe : Recipe) (hrn : rn ≠ "") (ht : 0 < t)
    (hfind : rs.find? (fun r => some r.title == some rn) = some recipe)
    (hotf : 0 < originalTotalFlour recipe.ingredients) :
    ∃ outs,
      calculate_conversion (some rn) (PyVal.num t) inc rs =
        ConvResult.ok (originalTotalFlour recipe.ingredients) t
          (t / originalTotalFlour recipe.ingredients) outs ∧
      ∀ i, ∀ h : i < recipe.ingredients.length,
        (is_percentage_group recipe.ingredients[i].group || inc) = true →
          outs[i]? = some { recipe.ingredients[i] with
            weight := some (pyRound 1 (recipe.ingredients[i].weight.getD 0 *
              (t / originalTotalFlour recipe.ingredients))) } := by
  refine ⟨convertIngredients recipe.ingredients (t / originalTotalFlour recipe.ingredients) inc,
    calculate_conversion_success rn t inc rs recipe hrn ht hfind hotf, ?_⟩
  intro i h hc
  rw [convertIngredients, List.getElem?_map, List.getElem?_eq_getElem h, Option.map_some']
  unfold convertOne
  rw [if_pos hc]

/-- Witness for C6's amended statement at `thirdRecipe`, target 1. -/
theorem reported_ratio_exact_weights_rounded_witness :
    ("A" : String) ≠ "" ∧ (0 : ℚ) < 1 ∧
    [thirdRecipe].find? (fun r => some r.title == some "A") = some thirdRecipe ∧
    (0 : ℚ) < originalTotalFlour thirdRecipe.ingredients ∧
    ∃ outs,
      calculate_conversion (some "A") (PyVal.num 1) false [thirdRecipe] =
        ConvResult.ok (originalTotalFlour thirdRecipe.ingredients) 1
          (1 / originalTotalFlour thirdRecipe.ingredients) outs ∧
      ∀ i, ∀ h : i < thirdRecipe.ingredients.length,
        (is_percentage_group thirdRecipe.ingredients[i].group || false) = true →
          outs[i]? = some { thirdRecipe.ingredients[i] with
            weight := some (pyRound 1 (thirdRecipe.ingredients[i].weight.getD 0 *
              (1 / originalTotalFlour thirdRecipe.ingredients))) } :=
  ⟨by decide, by decide, by rfl, by with_unfolding_all decide,
    reported_ratio_exact_weights_rounded "A" 1 false [thirdRecipe] thirdRecipe
      (by decide) (by decide) (by rfl) (by with_unfolding_all decide)⟩

/-- The title of a shaped group is its group key. -/
theorem shapeGroup_title (t : String) (g : List Row) : (shapeGroup t g).title = t := by
  cases g <;> rfl

/-- The ingredients of a shaped group are its rows in group order. -/
theorem shapeGroup_ingredients (t : String) (g : List Row) :
    (shapeGroup t g).ingredients = g.map rowToIngredient := by
  cases g <;> rfl

/-- Filtering the `(RecipeName, id)`-sorted frame to one title gives exactly
the storage-order rows of that title: both lists are permutations of each
other and both are strictly sorted by `id`. -/
theorem sorted_filter_eq (rows : List Row) (hid : rows.Pairwise idlt) (t : String) :
    (List.insertionSort rowLE rows).filter (fun r => r.RecipeName = t) =
      rows.filter (fun r => r.RecipeName = t) := by
  have hperm :
      List.Perm ((List.insertionSort rowLE rows).filter (fun r => r.RecipeName = t))
        (rows.filter (fun r => r.RecipeName = t)) :=
    (List.perm_insertionSort rowLE rows).filter _
  have h1 : (rows.filter (fun r => r.RecipeName = t)).Pairwise idlt :=
    hid.sublist (List.filter_sublist _)
  have hsorted : List.Sorted rowLE (List.insertionSort rowLE rows) :=
    List.sorted_insertionSort rowLE rows
  have h2 : ((List.insertionSort rowLE rows).filter (fun r => r.RecipeName = t)).Pairwise
      (fun a b => a.id ≤ b.id) := by
    have hp : ((List.insertionSort rowLE rows).filter
        (fun r => r.RecipeName = t)).Pairwise rowLE :=
      hsorted.sublist (List.filter_sublist _)
    refine hp.imp_of_mem ?_
    intro a b ha hb hab
    have ha2 : a.RecipeName = t := by simpa using (List.mem_filter.mp ha).2
    have hb2 : b.RecipeName = t := by simpa using (List.mem_filter.mp hb).2
    rcases hab with h | ⟨_, h⟩
    · exact absurd (ha2.trans hb2.symm) (ne_of_lt h)
    · exact h
  have hne : ((List.insertionSort rowLE rows).filter (fun r => r.RecipeName = t)).Pairwise
      (fun a b => a.id ≠ b.id) :=
    (hperm.pairwise_iff (fun h => Ne.symm h)).mpr (h1.imp fun h => Nat.ne_of_lt h)
  have h3 : ((List.insertionSort rowLE rows).filter (fun r => r.RecipeName = t)).Pairwise
      idlt :=
    (h2.and hne).imp fun hab => Nat.lt_of_le_of_ne hab.1 hab.2
  exact List.eq_of_perm_of_sorted hperm h3 h1

/-- C8: the shaper groups rows by title, emits the recipes sorted strictly
by title, covers every stored row's title, and gives each recipe exactly the
storage-order rows of its title as its ingredient list — however the titles
were interleaved in storage. The hypothesis says the row list is in storage
(id) order. -/
theorem shaper_groups_sorted_and_ordered (rows : List Row) (hid : rows.Pairwise idlt) :
    List.Sorted (· < ·) ((get_all_recipes_data rows).map Recipe.title) ∧
    (∀ r ∈ rows, r.RecipeName ∈ (get_all_recipes_data rows).map Recipe.title) ∧
    ∀ rec ∈ get_all_recipes_data rows,
      rec.ingredients =
        (rows.filter (fun r => r.RecipeName = rec.title)).map rowToIngredient := by
  have hga : get_all_recipes_data rows =
      (((List.insertionSort rowLE rows).map Row.RecipeName).dedup).map
        (fun t => shapeGroup t ((List.insertionSort rowLE rows).filter
          (fun r => r.RecipeName = t))) := rfl
  have htitles : (get_all_recipes_data rows).map Recipe.title =
      ((List.insertionSort rowLE rows).map Row.RecipeName).dedup := by
    rw [hga, List.map_map]
    conv_rhs =>
      rw [← List.map_id (((List.insertionSort rowLE rows).map Row.RecipeName).dedup)]
    exact List.map_congr_left fun t ht => shapeGroup_title t _
  refine ⟨?_, ?_, ?_⟩
  · rw [htitles]
    have hnames : List.Pairwise (· ≤ ·) ((List.insertionSort rowLE rows).map Row.RecipeName) := by
      refine (List.sorted_insertionSort rowLE rows).map Row.RecipeName ?_
      intro a b hab
      rcases hab with h | ⟨h, _⟩
      · exact le_of_lt h
      · exact le_of_eq h
    have hle : List.Pairwise (· ≤ ·)
        (((List.insertionSort rowLE rows).map Row.RecipeName).dedup) :=
      hnames.sublist (List.dedup_sublist _)
    have hnd : (((List.insertionSort rowLE rows).map Row.RecipeName).dedup).Nodup :=
      List.nodup_dedup _
    exact (hle.and hnd).imp fun hab => lt_of_le_of_ne hab.1 hab.2
  · intro r hr
    rw [htitles, List.mem_dedup]
    exact List.mem_map_of_mem Row.RecipeName
      ((List.perm_insertionSort rowLE rows).mem_iff.mpr hr)
  · intro rec hrec
    rw [hga] at hrec
    obtain ⟨t, ht, rfl⟩ := List.mem_map.mp hrec
    rw [shapeGroup_ingredients, shapeGroup_title, sorted_filter_eq rows hid t]

/-- Witness for C8 at the spec's interleaved two-recipe scenario. -/
theorem shaper_groups_sorted_and_ordered_witness :
    rowsInterleaved.Pairwise idlt ∧
    (List.Sorted (· < ·) ((get_all_recipes_data rowsInterleaved).map Recipe.title) ∧
    (∀ r ∈ rowsInterleaved,
      r.RecipeName ∈ (get_all_recipes_data rowsInterleaved).map Recipe.title) ∧
    ∀ rec ∈ get_all_recipes_data rowsInterleaved,
      rec.ingredients =
        (rowsInterleaved.filter (fun r => r.RecipeName = rec.title)).map rowToIngredient) :=
  ⟨by decide, shaper_groups_sorted_and_ordered rowsInterleaved (by decide)⟩
